import Mathlib

/-!
Verification development for the benchmark-operator composition engine.

This file shallowly embeds the Go sources of the repository:
`pkg/addons/volumes.go`, `pkg/addons/hpctoolkit.go`, the `ApplicationAddon`
file of the addons package, `pkg/metrics/perf/sysstat.go` and the metrics
package container assembly, and proves or refutes the frozen claims about
them.

Modelling conventions:
* A Go `map[string]T` is embedded as an association list whose entry order
  records the (unspecified, run-dependent) iteration order of the map; two
  association lists that are permutations of one another with no duplicate
  keys represent the same Go map state.  Keyed lookup (`v, ok := m[k]`)
  is `List.lookup`, which is order-independent for duplicate-free keys.
* Go methods with pointer receivers are embedded as functions returning the
  updated record; methods with value receivers additionally model the
  receiver copy made at call time.
* The Go pattern `v, ok := m[k]; if ok { x = v.StrVal }` is embedded as
  `getStr m k x₀` where `x₀` is the value the field holds just before the
  lookup (the assigned constant default, or the prior field value).
* Structs, methods and fields keep their source names except where Lean
  disallows the name; such renames are noted at the definition.
-/

set_option maxRecDepth 100000

/-- Model of `intstr.IntOrString` from the Kubernetes API machinery: a value
that is either an integer or a string; the sources only construct it via
`intstr.FromString` and only read `StrVal`. -/
structure IntOrString where
  intVal : Int := 0
  strVal : String := ""
deriving DecidableEq

/-- Model of `intstr.FromString`. -/
def intstrFromString (s : String) : IntOrString :=
  { strVal := s }

/-- A Go `map[string]α`: an association list whose order records the map's
iteration order.  Lists that are key-duplicate-free permutations of one
another represent the same map state. -/
abbrev GoMap (α : Type) := List (String × α)

/-- Embedding of the Go pattern `v, ok := bag[k]; if ok { field = v.StrVal }`:
returns the looked-up string when the key is present and the prior field
value `dflt` otherwise. -/
def getStr (bag : GoMap IntOrString) (k : String) (dflt : String) : String :=
  match bag.lookup k with
  | some v => v.strVal
  | none => dflt

/-- Model of `api.MetricAddon`: the raw option bag handed to `SetOptions`
(a flat string-keyed bag and a nested map-of-maps bag). -/
structure MetricAddon where
  Options : GoMap IntOrString := []
  MapOptions : GoMap (GoMap IntOrString) := []

/-- The Go copy loop `for k, v := range src { dst[k] = v }` building a fresh
map from an existing one, preserving the presented iteration order. -/
def copyEntries (m : GoMap IntOrString) : GoMap IntOrString :=
  m.foldl (fun acc kv => acc ++ [kv]) []

/-- `AddonBase` from the addons package: identifier and summary of a
registered addon prototype. -/
structure AddonBase where
  Identifier : String := ""
  Summary : String := ""
deriving DecidableEq

/-- `ApplicationAddon` struct (addons package). -/
structure ApplicationAddon where
  toAddonBase : AddonBase := {}
  image : String := ""
  command : String := ""
  workingDir : String := ""
  entrypoint : String := ""
  pullSecret : String := ""
  resources : GoMap (GoMap IntOrString) := []
  privileged : Bool := false
deriving DecidableEq

/-- `ApplicationAddon.Validate`: requires a container image and a command
(the logging calls of the source have no effect on the result and are
dropped). -/
def ApplicationAddon.Validate (a : ApplicationAddon) : Bool :=
  if a.image = "" then false
  else if a.command = "" then false
  else true

/-- `ApplicationAddon.setDefaultEntrypoint`. -/
def ApplicationAddon.setDefaultEntrypoint (a : ApplicationAddon) : ApplicationAddon :=
  { a with entrypoint := "/metrics_operator/" ++ a.toAddonBase.Identifier ++ "-entrypoint.sh" }

/-- `ApplicationAddon.SetDefaultOptions`: reset `resources`, read the known
flat keys, read the two nested resource bags, then apply the default
entrypoint if none was set. -/
def ApplicationAddon.SetDefaultOptions (a : ApplicationAddon) (metric : MetricAddon) :
    ApplicationAddon :=
  let resources : GoMap (GoMap IntOrString) :=
    (match metric.MapOptions.lookup "resourceLimits" with
      | some r => [("limits", copyEntries r)]
      | none => []) ++
    (match metric.MapOptions.lookup "resourceRequests" with
      | some r => [("requests", copyEntries r)]
      | none => [])
  let a := { a with
    resources := resources
    image := getStr metric.Options "image" a.image
    command := getStr metric.Options "command" a.command
    entrypoint := getStr metric.Options "entrypoint" a.entrypoint
    pullSecret := getStr metric.Options "pullSecret" a.pullSecret
    workingDir := getStr metric.Options "workingDir" a.workingDir
    privileged :=
      match metric.Options.lookup "privileged" with
      | some v => if v.strVal = "true" ∨ v.strVal = "yes" then true else a.privileged
      | none => a.privileged }
  if a.entrypoint = "" then a.setDefaultEntrypoint else a

/-- `ApplicationAddon.SetOptions` just delegates to the defaults. -/
def ApplicationAddon.SetOptions (a : ApplicationAddon) (metric : MetricAddon) :
    ApplicationAddon :=
  a.SetDefaultOptions metric

/-- `ApplicationAddon.DefaultOptions`: export the shared option fields.  The
Go map literal plus the conditional `privileged` insert is rendered as a
five-entry association list. -/
def ApplicationAddon.DefaultOptions (a : ApplicationAddon) : GoMap IntOrString :=
  let values : GoMap IntOrString :=
    [("image", intstrFromString a.image),
     ("workingDir", intstrFromString a.workingDir),
     ("entrypoint", intstrFromString a.entrypoint),
     ("command", intstrFromString a.command)]
  if a.privileged then values ++ [("privileged", intstrFromString "true")]
  else values ++ [("privileged", intstrFromString "false")]

/-- `ApplicationAddon.Options`. -/
def ApplicationAddon.Options (a : ApplicationAddon) : GoMap IntOrString :=
  a.DefaultOptions

/-- `ApplicationAddon.MapOptions`: export copies of the stored limits and
requests (an absent key yields an empty bag, as the Go range over a missing
map entry runs zero times). -/
def ApplicationAddon.MapOptions (a : ApplicationAddon) : GoMap (GoMap IntOrString) :=
  let limits := copyEntries ((a.resources.lookup "limits").getD [])
  let requests := copyEntries ((a.resources.lookup "requests").getD [])
  [("resourceLimits", limits), ("resourceRequests", requests)]

/-- The `ApplicationAddon` prototype registered by the package `init`. -/
def applicationRegistered : ApplicationAddon :=
  { toAddonBase := { Identifier := "application", Summary := "basic application (container) type" } }

/-- `HPCToolkit` struct (`pkg/addons/hpctoolkit.go`).  The Go field holding
the wrapping command placed in front of `hpcrun` (named after that wrapping
in the source, exported under the option key of the same name) is rendered
here as `cmdWrap` because its source name is reserved in Lean; the Go field
`workdir` read by `SetOptions` and `customizeEntrypoint` is kept. -/
structure HPCToolkit where
  toApplicationAddon : ApplicationAddon := {}
  target : String := ""
  containerTarget : String := ""
  events : String := ""
  mount : String := ""
  entrypointPath : String := ""
  volumeName : String := ""
  workdir : String := ""
  cmdWrap : String := ""
deriving DecidableEq

/-- `HPCToolkit.Validate`: requires one or more events. -/
def HPCToolkit.Validate (a : HPCToolkit) : Bool :=
  if a.events = "" then false else true

/-- `HPCToolkit.SetOptions`: fixed entrypoint path, image and volume name,
defaulted mount, then the shared defaults and the six hpctoolkit option
keys. -/
def HPCToolkit.SetOptions (a : HPCToolkit) (metric : MetricAddon) : HPCToolkit :=
  let app := { a.toApplicationAddon with
    image := "ghcr.io/converged-computing/metric-hpctoolkit-view:latest" }
  let app := app.SetDefaultOptions metric
  { a with
    toApplicationAddon := app
    entrypointPath := "/metrics_operator/hpctoolkit-entrypoint.sh"
    mount := getStr metric.Options "mount" "/opt/share"
    volumeName := "hpctoolkit"
    cmdWrap := getStr metric.Options "prefix" a.cmdWrap
    workdir := getStr metric.Options "workdir" a.workdir
    target := getStr metric.Options "target" a.target
    containerTarget := getStr metric.Options "containerTarget" a.containerTarget
    events := getStr metric.Options "events" a.events }

/-- `HPCToolkit.Options`: the shared defaults plus events, mount and the
wrapping command (exported under the key used by the source). -/
def HPCToolkit.Options (a : HPCToolkit) : GoMap IntOrString :=
  a.toApplicationAddon.DefaultOptions ++
    [("events", intstrFromString a.events),
     ("mount", intstrFromString a.mount),
     ("prefix", intstrFromString a.cmdWrap)]

/-- The `HPCToolkit` prototype registered by the package `init`. -/
def hpctoolkitRegistered : HPCToolkit :=
  { toApplicationAddon :=
      { toAddonBase :=
          { Identifier := "perf-hpctoolkit"
            Summary := "performance tools for measurement and analysis" } } }

/-- `corev1.KeyToPath` (Kubernetes core API), restricted to the fields the
sources set. -/
structure KeyToPath where
  Key : String := ""
  Path : String := ""
deriving DecidableEq

/-- `corev1.ConfigMapVolumeSource`, restricted to the fields the sources
set (`LocalObjectReference.Name` flattened to `LocalObjectName`). -/
structure ConfigMapVolumeSource where
  LocalObjectName : String := ""
  Items : List KeyToPath := []
deriving DecidableEq

/-- `corev1.VolumeSource`, restricted to the alternatives the sources
construct; each nested source type is flattened to the fields assigned. -/
structure VolumeSource where
  EmptyDir : Bool := false
  ConfigMap : Option ConfigMapVolumeSource := none
  PersistentVolumeClaimName : Option String := none
  SecretName : Option String := none
  HostPath : Option String := none
deriving DecidableEq

/-- `corev1.Volume`. -/
structure Volume where
  Name : String := ""
  VolumeSource : VolumeSource := {}
deriving DecidableEq

/-- `specs.VolumeSpec` from the specs package: underlying volume, mount
path, read-only flag and whether it is mounted into the current container. -/
structure VolumeSpec where
  Volume : Volume := {}
  ReadOnly : Bool := false
  Mount : Bool := false
  Path : String := ""
deriving DecidableEq

/-- Split a character list at every slash. -/
def splitOnSlash : List Char → List (List Char)
  | [] => [[]]
  | c :: rest =>
    match splitOnSlash rest with
    | [] => [[]]
    | h :: t => if c = '/' then [] :: h :: t else (c :: h) :: t

/-- Rejoin slash-separated components. -/
def joinSlash : List (List Char) → List Char
  | [] => []
  | [x] => x
  | x :: y :: t => x ++ '/' :: joinSlash (y :: t)

/-- Go `filepath.Base`, restricted to the non-empty, already-clean,
slash-terminated-free paths the sources pass: the final path component. -/
def filepathBase (s : String) : String :=
  ⟨(splitOnSlash s.data).getLastD []⟩

/-- Go `filepath.Dir`, restricted to the already-clean paths the sources
pass: everything before the final component. -/
def filepathDir (s : String) : String :=
  ⟨joinSlash (splitOnSlash s.data).dropLast⟩

/-- `VolumeBase` struct (`pkg/addons/volumes.go`): shared name, path and
read-only flag of the volume addons. -/
structure VolumeBase where
  toAddonBase : AddonBase := {}
  readOnly : Bool := false
  name : String := ""
  path : String := ""
deriving DecidableEq

/-- `VolumeBase.DefaultValidate`: the shared check that a name and a path
were set on the embedded `VolumeBase`. -/
def VolumeBase.DefaultValidate (v : VolumeBase) : Bool :=
  if v.name = "" then false
  else if v.path = "" then false
  else true

/-- `VolumeBase.DefaultSetOptions`: shared parsing of the `name`, `path`
and `readOnly` keys into the embedded `VolumeBase` fields. -/
def VolumeBase.DefaultSetOptions (v : VolumeBase) (metric : MetricAddon) : VolumeBase :=
  { v with
    name := getStr metric.Options "name" v.name
    path := getStr metric.Options "path" v.path
    readOnly :=
      match metric.Options.lookup "readOnly" with
      | some r => if r.strVal = "yes" ∨ r.strVal = "true" then true else v.readOnly
      | none => v.readOnly }

/-- `ConfigMapVolume` struct: its own `name`, `path` and `items` fields
shadow nothing except the embedded `VolumeBase.name`/`path` (Go resolves
`v.name` on a `ConfigMapVolume` receiver to the outer, shallower field). -/
structure ConfigMapVolume where
  toVolumeBase : VolumeBase := {}
  configMapName : String := ""
  name : String := ""
  path : String := ""
  items : GoMap String := []
deriving DecidableEq

/-- `ConfigMapVolume.Validate`. -/
def ConfigMapVolume.Validate (v : ConfigMapVolume) : Bool :=
  if v.configMapName = "" then false
  else if v.items.length = 0 then false
  else v.toVolumeBase.DefaultValidate

/-- `ConfigMapVolume.SetOptions`: reset items, read `configMapName`, copy
the nested `items` bag (in presented iteration order), then the shared
defaults. -/
def ConfigMapVolume.SetOptions (v : ConfigMapVolume) (metric : MetricAddon) : ConfigMapVolume :=
  let items : GoMap String :=
    match metric.MapOptions.lookup "items" with
    | some its => its.foldl (fun acc kv => acc ++ [(kv.1, kv.2.strVal)]) []
    | none => []
  let v := { v with
    items := items
    configMapName := getStr metric.Options "configMapName" v.configMapName }
  { v with toVolumeBase := v.toVolumeBase.DefaultSetOptions metric }

/-- `ConfigMapVolume.MapOptions`: re-export the items map, ranging over it
in its presented iteration order. -/
def ConfigMapVolume.MapOptions (v : ConfigMapVolume) : GoMap (GoMap IntOrString) :=
  [("items", v.items.foldl (fun acc kv => acc ++ [(kv.1, intstrFromString kv.2)]) [])]

/-- `ConfigMapVolume.AssembleVolumes`: range over the items map in its
presented iteration order, appending one `KeyToPath` per entry, and wrap
the result in a read-only mounted config-map volume. -/
def ConfigMapVolume.AssembleVolumes (v : ConfigMapVolume) : List VolumeSpec :=
  let items : List KeyToPath :=
    v.items.foldl (fun acc kv => acc ++ [{ Key := kv.1, Path := kv.2 }]) []
  let newVolume : Volume :=
    { Name := v.name
      VolumeSource :=
        { ConfigMap := some { LocalObjectName := v.configMapName, Items := items } } }
  [{ Volume := newVolume, Path := filepathDir v.path, ReadOnly := true, Mount := true }]

/-- `HostPathVolume` struct: its own `path` and `name` shadow the embedded
`VolumeBase` fields. -/
structure HostPathVolume where
  toVolumeBase : VolumeBase := {}
  hostPath : String := ""
  path : String := ""
  name : String := ""
deriving DecidableEq

/-- `HostPathVolume.Validate`: host path present, then the shared check on
the embedded `VolumeBase` fields. -/
def HostPathVolume.Validate (v : HostPathVolume) : Bool :=
  if v.hostPath = "" then false else v.toVolumeBase.DefaultValidate

/-- `HostPathVolume.SetOptions`: writes only the outer shadowing fields,
never the embedded `VolumeBase` ones (it does not call
`DefaultSetOptions`). -/
def HostPathVolume.SetOptions (v : HostPathVolume) (metric : MetricAddon) : HostPathVolume :=
  { v with
    hostPath := getStr metric.Options "hostPath" v.hostPath
    path := getStr metric.Options "path" v.path
    name := getStr metric.Options "name" v.name }

/-- `EmptyVolume` struct: its own `name` and `path` shadow the embedded
`VolumeBase` fields. -/
structure EmptyVolume where
  toVolumeBase : VolumeBase := {}
  name : String := ""
  path : String := ""
deriving DecidableEq

/-- `EmptyVolume.Validate`: outer name present, then the shared check on
the embedded `VolumeBase` fields. -/
def EmptyVolume.Validate (v : EmptyVolume) : Bool :=
  if v.name = "" then false else v.toVolumeBase.DefaultValidate

/-- `EmptyVolume.SetOptions`: writes only the outer shadowing `name`,
never the embedded `VolumeBase` fields. -/
def EmptyVolume.SetOptions (v : EmptyVolume) (metric : MetricAddon) : EmptyVolume :=
  { v with name := getStr metric.Options "name" v.name }

/-- The `EmptyVolume` prototype registered by the package `init`. -/
def emptyVolumeRegistered : EmptyVolume :=
  { toVolumeBase := { toAddonBase := { Identifier := "volume-empty", Summary := "empty volume type" } } }

/-- A fresh zero-valued `HostPathVolume` (the type has no registration in
the volumes file; a constructed instance starts from Go zero values). -/
def hostPathVolumeFresh : HostPathVolume := {}

/-- Modelled from the spec: `specs.EntrypointScript` of the specs package
(the package itself is not under src/); the rendered script attached to a
container, with its name, file path, script file name, and the
Pre/Command/Post fragment triple of section 3 of the spec. -/
structure EntrypointScript where
  Name : String := ""
  Path : String := ""
  Script : String := ""
  Pre : String := ""
  Command : String := ""
  Post : String := ""
deriving DecidableEq

/-- Modelled from the spec: `specs.ContainerSpec` of the specs package (not
under src/); name, image, owning job-group name, entrypoint triple, the
privileged security attribute and the needs-external-persistence flag.  The
resource record is omitted: every construction under src/ passes an empty
one. -/
structure ContainerSpec where
  Image : String := ""
  Name : String := ""
  JobName : String := ""
  EntrypointScript : EntrypointScript := {}
  Privileged : Bool := false
  NeedsWrite : Bool := false
deriving DecidableEq

/-- `jobset.ReplicatedJob` (external JobSet API), restricted to the only
field the sources read. -/
structure ReplicatedJob where
  Name : String := ""
deriving DecidableEq

/-- Modelled from the spec: the literal `Separator` marker token of the
metadata package (not under src/); its exact text is a stable contract and
must not vary by plugin. -/
def metadataSeparator : String := "METADATA_SEPARATOR_MARKER"

/-- Modelled from the spec: the literal `CollectionStart` marker token of
the metadata package (not under src/). -/
def metadataCollectionStart : String := "METRICS_COLLECTION_START_MARKER"

/-- Modelled from the spec: the literal `CollectionEnd` marker token of the
metadata package (not under src/). -/
def metadataCollectionEnd : String := "METRICS_COLLECTION_END_MARKER"

/-- Modelled from the spec: `Metadata(a)` of the addons package (not under
src/), which renders an addon header comment block; the claims only depend
on it being some marker-free header text. -/
def addonMetadata (a : HPCToolkit) : String :=
  "# addon: " ++ a.toApplicationAddon.toAddonBase.Identifier

/-- The seven literal chunks of the `preBlock` template of
`HPCToolkit.customizeEntrypoint`, split at its six format slots, in
source order. -/
def hpcLit1 : String := "\necho \""

/-- Template chunk between the metadata slot and the first mount slot. -/
def hpcLit2 : String :=
  "\"\n# Ensure hpcrun and software exists. This is rough, but should be OK with enough wait time\nwget https://github.com/converged-computing/goshare/releases/download/2023-09-06/wait-fs\nchmod +x ./wait-fs\nmv ./wait-fs /usr/bin/goshare-wait-fs\n\t\n# Ensure spack view is on the path, wherever it is mounted\nviewbase=\""

/-- Template chunk between the first and second mount slots. -/
def hpcLit3 : String :=
  "\"\nsoftware=\"${viewbase}/software\"\nviewbin=\"${viewbase}/view/bin\"\nhpcrunpath=${viewbin}/hpcrun\n\n# Important to add AFTER in case software in container duplicated\nexport PATH=$PATH:${viewbin}\n\t\n# Wait for software directory, and give it time\ngoshare-wait-fs -p ${software}\n\t\n# Wait for copy to finish\nsleep 10\n\t\n# Copy mount software to /opt/software\ncp -R "

/-- Template chunk between the second mount slot and the events slot. -/
def hpcLit4 : String :=
  "/software /opt/software\n\t\n# Wait for hpcrun and marker to indicate copy is done\ngoshare-wait-fs -p ${viewbin}/hpcrun\ngoshare-wait-fs -p ${viewbase}/metrics-operator-done.txt\n\n# A small extra wait time to be conservative\nsleep 5\n\n# This will work with capability SYS_ADMIN added.\n# It will only work with privileged set to true AT YOUR OWN RISK!\necho \"-1\" | tee /proc/sys/kernel/perf_event_paranoid\n\t\n# Run hpcrun. See options with hpcrun -L\nevents=\""

/-- Template chunk between the events slot and the CollectionStart slot. -/
def hpcLit5 : String := "\"\necho \""

/-- Template chunk between the CollectionStart slot and the Separator
slot. -/
def hpcLit6 : String := "\"\necho \""

/-- Trailing template chunk after the Separator slot. -/
def hpcLit7 : String :=
  "\"\n\t\n# Commands to interact with output data\n# hpcprof hpctoolkit-sleep-measurements\n# hpcstruct hpctoolkit-sleep-measurements\n# hpcviewer ./hpctoolkit-lmp-database\n"

/-- The `fmt.Sprintf` of the `preBlock` template as the sequence of its
rendered fragments, in source order: the six arguments are the addon
metadata, the mount (twice), the events, then `metadata.CollectionStart`,
then `metadata.Separator`. -/
def hpcPreBlockFrags (a : HPCToolkit) (meta : String) : List String :=
  [hpcLit1, meta, hpcLit2, a.mount, hpcLit3, a.mount, hpcLit4, a.events,
   hpcLit5, metadataCollectionStart, hpcLit6, metadataSeparator, hpcLit7]

/-- The working-directory block appended to the pre block when `workdir` is
set. -/
def hpcWorkdirBlock (w : String) : String :=
  "\nworkdir=\"" ++ w ++ "\"\necho \"Changing directory to ${workdir}\"\ncd ${workdir}\t\t\t\n"

/-- The full `preBlock` text of `customizeEntrypoint`: the rendered
template fragments, plus the working-directory block when `workdir` is
non-empty. -/
def hpcPreBlock (a : HPCToolkit) (meta : String) : String :=
  String.join (hpcPreBlockFrags a meta) ++
    (if a.workdir ≠ "" then hpcWorkdirBlock a.workdir else "")

/-- The command rewrite of `customizeEntrypoint`: the wrapping command,
`$hpcrunpath $events`, then the current command. -/
def hpcCommandWrap (a : HPCToolkit) (command : String) : String :=
  a.cmdWrap ++ " $hpcrunpath $events " ++ command

/-- The per-container body of the loop of `customizeEntrypoint`: skip
containers of other replicated jobs; always append the pre block; skip the
command rewrite only when a container target is set, the container has a
non-empty name, and that name differs from the target. -/
def HPCToolkit.applyToContainer (a : HPCToolkit) (preBlock : String) (rj : ReplicatedJob)
    (c : ContainerSpec) : ContainerSpec :=
  if c.JobName ≠ rj.Name then c
  else
    let c := { c with EntrypointScript :=
      { c.EntrypointScript with Pre := c.EntrypointScript.Pre ++ "\n" ++ preBlock } }
    if a.containerTarget ≠ "" ∧ c.Name ≠ "" ∧ a.containerTarget ≠ c.Name then c
    else { c with EntrypointScript :=
      { c.EntrypointScript with Command := hpcCommandWrap a c.EntrypointScript.Command } }

/-- `HPCToolkit.customizeEntrypoint`: build the pre block once, then apply
the per-container body to every container of the slice (the Go loop
mutates each element through its pointer, independently of the others). -/
def HPCToolkit.customizeEntrypoint (a : HPCToolkit) (cs : List ContainerSpec)
    (rj : ReplicatedJob) : List ContainerSpec :=
  let preBlock := hpcPreBlock a (addonMetadata a)
  cs.map (a.applyToContainer preBlock rj)

/-- `HPCToolkit.CustomizeEntrypoints`: for each replicated job in order,
skip it when a target is set and differs from its name, otherwise customize
the whole container slice for it. -/
def HPCToolkit.CustomizeEntrypoints (a : HPCToolkit) (cs : List ContainerSpec)
    (rjs : List ReplicatedJob) : List ContainerSpec :=
  rjs.foldl
    (fun cs rj =>
      if a.target ≠ "" ∧ a.target ≠ rj.Name then cs
      else a.customizeEntrypoint cs rj)
    cs

/-- `HPCToolkit.AssembleVolumes`: an empty-dir volume named by
`volumeName` mounted at `mount`, and an unmounted read-only config-map
volume whose single item maps `volumeName` to the base name of the
entrypoint path. -/
def HPCToolkit.AssembleVolumes (a : HPCToolkit) : List VolumeSpec :=
  let volume : Volume := { Name := a.volumeName, VolumeSource := { EmptyDir := true } }
  let items : List KeyToPath :=
    [{ Key := a.volumeName, Path := filepathBase a.entrypointPath }]
  let configVolume : Volume :=
    { VolumeSource := { ConfigMap := some { Items := items } } }
  [{ Volume := volume, Mount := true, Path := a.mount },
   { Volume := configVolume, ReadOnly := true, Mount := false,
     Path := filepathDir a.entrypointPath }]

/-- The addon container script template of `HPCToolkit.AssembleContainers`,
rendered with the mount in its three slots. -/
def hpcAddonScript (mount : String) : String :=
  "#!/bin/bash\n\necho \"Moving content from /opt/view to be in shared volume at " ++ mount ++
  "\"\nview=$(ls /opt/views/._view/)\nview=\"/opt/views/._view/${view}\"\n\n# Give a little extra wait time\nsleep 10\n\nviewroot=\"" ++ mount ++
  "\"\nmkdir -p $viewroot/view\n# We have to move both of these paths, *sigh*\ncp -R ${view}/* $viewroot/view\ncp -R /opt/software $viewroot/\n\n# This is a marker to indicate the copy is done\ntouch $viewroot/metrics-operator-done.txt\n\n# Sleep forever, the application needs to run and end\necho \"Sleeping forever so " ++ mount ++
  " can be shared and use for hpctoolkit.\"\nsleep infinity\n"

/-- `HPCToolkit.AssembleContainers`: a single `hpctoolkit` container whose
entrypoint carries the addon script as its Pre text and which must be
externally persisted. -/
def HPCToolkit.AssembleContainers (a : HPCToolkit) : List ContainerSpec :=
  let script := hpcAddonScript a.mount
  let entrypoint : EntrypointScript :=
    { Name := a.volumeName
      Path := a.entrypointPath
      Script := filepathBase a.entrypointPath
      Pre := script }
  [{ Image := a.toApplicationAddon.image
     Name := "hpctoolkit"
     EntrypointScript := entrypoint
     Privileged := a.toApplicationAddon.privileged
     NeedsWrite := true }]

/-- `api.Metric` (v1alpha1), restricted to the only field
`PidStat.SetOptions` reads. -/
structure Metric where
  Rate : Int := 0

/-- `PidStat` struct (`pkg/metrics/perf/sysstat.go`). -/
structure PidStat where
  name : String := ""
  rate : Int := 0
  description : String := ""
  container : String := ""
  requiresApplication : Bool := false
deriving DecidableEq

/-- The body of `PidStat.SetOptions` as executed on its receiver: assign
`metric.Rate` to the receiver's `rate` field. -/
def PidStat.setOptionsBody (m : PidStat) (metric : Metric) : PidStat :=
  { m with rate := metric.Rate }

/-- The Go call `m.SetOptions(metric)` where the method has a VALUE
receiver: the body runs on a copy of `m`, so the caller's instance after
the call is `m` itself, unchanged. -/
def PidStat.SetOptions (m : PidStat) (metric : Metric) : PidStat :=
  let receiverCopy := m
  let _updatedCopy := receiverCopy.setOptionsBody metric
  m

/-- The `PidStat` value registered by the package `init` (its `rate` field
is left at the Go zero value). -/
def pidStatRegistered : PidStat :=
  { name := "perf-sysstat"
    description := "statistics for Linux tasks (processes) : I/O, CPU, memory, etc."
    requiresApplication := true
    container := "ghcr.io/converged-computing/benchmark-sysstat:latest" }

/-- The surface of the `Metric` interface read by `getContainers` of the
metrics package: name, image and working directory of a registered
metric. -/
structure MetricPlugin where
  name : String := ""
  image : String := ""
  workingDir : String := ""

/-- The Go `fmt.Sprintf` of the per-metric script path in `getContainers`. -/
def entrypointScriptPath (i : Nat) : String :=
  "/metrics_operator/entrypoint-" ++ toString i ++ ".sh"

/-- `metrics.ContainerSpec` of the metrics package (second half of the
pennant source file): command, image, name and working directory. -/
structure MContainerSpec where
  Command : List String := []
  Image : String := ""
  Name : String := ""
  WorkingDir : String := ""
deriving DecidableEq

/-- The container-spec loop of `getContainers` in the metrics package: one
spec per metric, in order, whose command runs the index-named entrypoint
script under `/metrics_operator` via bash. -/
def getContainersSpecs (metrics : List MetricPlugin) : List MContainerSpec :=
  metrics.enum.map fun im =>
    { Command := ["/bin/bash", entrypointScriptPath im.1]
      Image := im.2.image
      WorkingDir := im.2.workingDir
      Name := im.2.name }

/-- Occurrence count of a pattern in a character list: the number of
positions at which the pattern is a prefix of the remaining suffix. -/
def countSub (pat : List Char) : List Char → Nat
  | [] => 0
  | c :: rest => (if pat.isPrefixOf (c :: rest) then 1 else 0) + countSub pat rest

/-- Occurrence count of the literal `pat` in the string `s`. -/
def strCount (pat s : String) : Nat :=
  countSub pat.data s.data

/-- The characters of `s` strictly before the first occurrence of `pat`. -/
def takeUntil (pat : List Char) : List Char → List Char
  | [] => []
  | c :: rest => if pat.isPrefixOf (c :: rest) then [] else c :: takeUntil pat rest

/-- The text of `s` strictly before the first occurrence of `pat`. -/
def strBefore (pat s : String) : String :=
  ⟨takeUntil pat.data s.data⟩

/-- A string that is not one of the three marker tokens. -/
def notMarker (s : String) : Prop :=
  s ≠ metadataSeparator ∧ s ≠ metadataCollectionStart ∧ s ≠ metadataCollectionEnd

/-- The subsequence of rendered fragments that are marker tokens, in
textual order. -/
def markerSeq (frags : List String) : List String :=
  frags.filter fun f =>
    f == metadataSeparator || f == metadataCollectionStart || f == metadataCollectionEnd

/-- The cumulative per-container effect of `CustomizeEntrypoints`: the
per-replicated-job body folded over the job list, for one container. -/
def HPCToolkit.applyAll (a : HPCToolkit) (rjs : List ReplicatedJob) (c : ContainerSpec) :
    ContainerSpec :=
  rjs.foldl
    (fun c rj =>
      if a.target ≠ "" ∧ a.target ≠ rj.Name then c
      else a.applyToContainer (hpcPreBlock a (addonMetadata a)) rj c)
    c

/-- The flat option keys read by `ApplicationAddon.SetDefaultOptions`. -/
def appKnownKeys : List String :=
  ["image", "command", "entrypoint", "pullSecret", "workingDir", "privileged"]

/-- The flat option keys read by `HPCToolkit.SetOptions` (the shared keys
plus its own six). -/
def hpcKnownKeys : List String :=
  appKnownKeys ++ ["mount", "prefix", "workdir", "target", "containerTarget", "events"]

/-- Two Go maps with the same state: same entries up to iteration order,
with duplicate-free keys. -/
def goMapSameState {α : Type} (m1 m2 : GoMap α) : Prop :=
  m1.Perm m2 ∧ (m1.map Prod.fst).Nodup

/-- Two `ConfigMapVolume` values holding the same instance state: all
scalar fields equal and the items map equal as a map (up to iteration
order). -/
def ConfigMapVolume.sameState (v1 v2 : ConfigMapVolume) : Prop :=
  v1.toVolumeBase = v2.toVolumeBase ∧ v1.configMapName = v2.configMapName ∧
  v1.name = v2.name ∧ v1.path = v2.path ∧ goMapSameState v1.items v2.items

/-- A configured `ConfigMapVolume` whose items map was presented in one
iteration order. -/
def cmVolA : ConfigMapVolume :=
  { toVolumeBase := { name := "cm", path := "/etc/config/app.yaml" }
    configMapName := "my-config"
    name := "cm"
    path := "/etc/config/app.yaml"
    items := [("keyA", "a.yaml"), ("keyB", "b.yaml")] }

/-- The same `ConfigMapVolume` state with the items map presented in the
other iteration order. -/
def cmVolB : ConfigMapVolume :=
  { cmVolA with items := [("keyB", "b.yaml"), ("keyA", "a.yaml")] }

/-- A concrete configured hpctoolkit instance: the registered prototype
after `SetOptions` with only an `events` option. -/
def hpcEx : HPCToolkit :=
  hpctoolkitRegistered.SetOptions { Options := [("events", intstrFromString "-e IO")] }

/-- A concrete hpctoolkit instance with a container target set, for the
scoping claims. -/
def hpcC3 : HPCToolkit :=
  hpctoolkitRegistered.SetOptions
    { Options := [("events", intstrFromString "-e IO"),
                  ("containerTarget", intstrFromString "app")] }

/-- A container with an empty name inside job-group `j`. -/
def c3Container : ContainerSpec :=
  { Name := "", JobName := "j"
    EntrypointScript := { Command := "./run-benchmark" } }

/-- The replicated job named `j`. -/
def rjJ : ReplicatedJob := { Name := "j" }

/-- The replicated job named `other`. -/
def rjOther : ReplicatedJob := { Name := "other" }

/-- A container in job-group `other`. -/
def cOther : ContainerSpec :=
  { Name := "app", JobName := "other"
    EntrypointScript := { Command := "./app" } }

/-- A concrete raw option bag declaring events, a job-group target and a
working directory. -/
def hpcXBag : MetricAddon :=
  { Options := [("events", intstrFromString "-e IO"),
                ("target", intstrFromString "worker"),
                ("workdir", intstrFromString "/w")] }

/-- A concrete valid hpctoolkit instance carrying a job-group target and a
working directory, for the round-trip claim. -/
def hpcX : HPCToolkit :=
  hpctoolkitRegistered.SetOptions hpcXBag

/-- The application addon configured from the same bag. -/
def appX : ApplicationAddon :=
  applicationRegistered.SetOptions hpcXBag

/-- The round trip of `appX`: a fresh registered prototype configured with
the exported option bags. -/
def appXRound : ApplicationAddon :=
  applicationRegistered.SetOptions { Options := appX.Options, MapOptions := appX.MapOptions }

/-- The round trip of `hpcX`: a fresh registered prototype configured with
the option bags exported by `hpcX.Options()` and `hpcX.MapOptions()`. -/
def hpcXRound : HPCToolkit :=
  hpctoolkitRegistered.SetOptions
    { Options := hpcX.Options
      MapOptions := hpcX.toApplicationAddon.MapOptions }

theorem foldl_append_map {α β : Type} (f : α → β) (l : List α) (acc : List β) :
    l.foldl (fun acc x => acc ++ [f x]) acc = acc ++ l.map f := by
  induction l generalizing acc with
  | nil => simp
  | cons x xs ih => simp [ih]

theorem copyEntries_eq (m : GoMap IntOrString) : copyEntries m = m := by
  simpa using foldl_append_map (fun kv => kv) m []

/-- C5: `ApplicationAddon.Validate` holds exactly when both the image and
the command are non-empty, and `HPCToolkit.Validate` holds exactly when the
events field is non-empty.  Both are pure functions of the instance in this
embedding, mirroring the source methods, which only read the checked
fields (and log). -/
theorem C5_validate_iff (a : ApplicationAddon) (h : HPCToolkit) :
    (a.Validate = true ↔ (a.image ≠ "" ∧ a.command ≠ "")) ∧
    (h.Validate = true ↔ h.events ≠ "") := by
  unfold ApplicationAddon.Validate HPCToolkit.Validate
  constructor
  · split_ifs with h1 h2 <;> simp_all
  · split_ifs with h1 <;> simp_all

/-- C8: after `SetOptions` on a fresh `EmptyVolume` or `HostPathVolume`,
validation always fails, whatever the option bag: their `SetOptions` write
only the outer shadowing fields and leave the embedded `VolumeBase`
name/path (which `DefaultValidate` reads) empty. -/
theorem C8_shadowed_fields_fail_validation (bag : MetricAddon) :
    (emptyVolumeRegistered.SetOptions bag).Validate = false ∧
    (hostPathVolumeFresh.SetOptions bag).Validate = false ∧
    (emptyVolumeRegistered.SetOptions bag).toVolumeBase = emptyVolumeRegistered.toVolumeBase ∧
    (hostPathVolumeFresh.SetOptions bag).toVolumeBase = hostPathVolumeFresh.toVolumeBase := by
  refine ⟨?_, ?_, rfl, rfl⟩
  · show (if getStr bag.Options "name" "" = "" then false
      else VolumeBase.DefaultValidate _) = false
    split <;> rfl
  · show (if getStr bag.Options "hostPath" "" = "" then false
      else VolumeBase.DefaultValidate _) = false
    split <;> rfl

/-- C9: `PidStat.SetOptions` has a value receiver, so calling it never
changes the caller's instance; the `metric.Rate` assignment lands on the
receiver copy, and the registered instance's rate stays at its zero
value. -/
theorem C9_value_receiver_rate_unchanged (m : PidStat) (metric : Metric) :
    m.SetOptions metric = m ∧
    pidStatRegistered.rate = 0 ∧
    (pidStatRegistered.SetOptions metric).rate = 0 ∧
    (m.setOptionsBody metric).rate = metric.Rate :=
  ⟨rfl, rfl, rfl, rfl⟩

/-- C1: evaluation of `ConfigMapVolume.AssembleVolumes` at the failing
input.  `cmVolA` and `cmVolB` hold the same instance state (the same
items map, presented in the two possible Go iteration orders), yet
`AssembleVolumes` emits the `KeyToPath` items in different orders, so the
output is not byte-identical across runs with the same declared
configuration. -/
theorem C1_map_iteration_order_changes_output :
    ConfigMapVolume.sameState cmVolA cmVolB ∧
    cmVolA.AssembleVolumes ≠ cmVolB.AssembleVolumes := by
  refine ⟨⟨rfl, rfl, rfl, rfl, ?_, ?_⟩, ?_⟩
  · decide
  · decide
  · decide

/-- C2 counterexample: in the script text contributed by
`customizeEntrypoint` for a configured instance, the `CollectionStart`
marker occurs exactly once and already BEFORE the single `Separator`
occurrence (the Sprintf passes `CollectionStart` as the fifth argument and
`Separator` as the sixth), and `CollectionEnd` does not occur at all — so
the contributed text does not place `CollectionStart` after `Separator`,
nor a `CollectionEnd` once after it, refuting the claimed order and
count. -/
theorem C2_counterexample :
    strCount metadataCollectionStart (hpcPreBlock hpcEx (addonMetadata hpcEx)) = 1 ∧
    strCount metadataSeparator (hpcPreBlock hpcEx (addonMetadata hpcEx)) = 1 ∧
    strCount metadataCollectionEnd (hpcPreBlock hpcEx (addonMetadata hpcEx)) = 0 ∧
    strCount metadataCollectionStart
      (strBefore metadataSeparator (hpcPreBlock hpcEx (addonMetadata hpcEx))) = 1 := by
  decide

/-- C2 amended: for every hpctoolkit instance whose interpolated values
(events, mount, metadata header) are not marker tokens, the marker
fragments of the contributed pre block are exactly `CollectionStart`
followed by `Separator`: each occurs once, `CollectionStart` comes FIRST,
and `CollectionEnd` never occurs in the contributed text. -/
theorem C2_amended_contributed_marker_order (a : HPCToolkit) (meta : String)
    (h1 : notMarker a.events) (h2 : notMarker a.mount) (h3 : notMarker meta) :
    markerSeq (hpcPreBlockFrags a meta) = [metadataCollectionStart, metadataSeparator] := by
  obtain ⟨e1, e2, e3⟩ := h1
  obtain ⟨m1, m2, m3⟩ := h3
  obtain ⟨n1, n2, n3⟩ := h2
  have he : (a.events == metadataSeparator || a.events == metadataCollectionStart ||
      a.events == metadataCollectionEnd) = false := by simp [e1, e2, e3]
  have hm : (meta == metadataSeparator || meta == metadataCollectionStart ||
      meta == metadataCollectionEnd) = false := by simp [m1, m2, m3]
  have hn : (a.mount == metadataSeparator || a.mount == metadataCollectionStart ||
      a.mount == metadataCollectionEnd) = false := by simp [n1, n2, n3]
  have l6 : (hpcLit6 == metadataSeparator || hpcLit6 == metadataCollectionStart ||
      hpcLit6 == metadataCollectionEnd) = false := by decide
  have l1 : (hpcLit1 == metadataSeparator || hpcLit1 == metadataCollectionStart ||
      hpcLit1 == metadataCollectionEnd) = false := by decide
  have l2 : (hpcLit2 == metadataSeparator || hpcLit2 == metadataCollectionStart ||
      hpcLit2 == metadataCollectionEnd) = false := by decide
  have l3 : (hpcLit3 == metadataSeparator || hpcLit3 == metadataCollectionStart ||
      hpcLit3 == metadataCollectionEnd) = false := by decide
  have l4 : (hpcLit4 == metadataSeparator || hpcLit4 == metadataCollectionStart ||
      hpcLit4 == metadataCollectionEnd) = false := by decide
  have l5 : (hpcLit5 == metadataSeparator || hpcLit5 == metadataCollectionStart ||
      hpcLit5 == metadataCollectionEnd) = false := by decide
  have l7 : (hpcLit7 == metadataSeparator || hpcLit7 == metadataCollectionStart ||
      hpcLit7 == metadataCollectionEnd) = false := by decide
  have ls : (metadataCollectionStart == metadataSeparator ||
      metadataCollectionStart == metadataCollectionStart ||
      metadataCollectionStart == metadataCollectionEnd) = true := by decide
  have lsep : (metadataSeparator == metadataSeparator ||
      metadataSeparator == metadataCollectionStart ||
      metadataSeparator == metadataCollectionEnd) = true := by decide
  simp [markerSeq, hpcPreBlockFrags, List.filter, l1, l2, l3, l4, l5, l6, l7, ls, lsep,
    he, hm, hn]

/-- C2 amended witness at a concrete configured instance. -/
theorem C2_amended_witness :
    (notMarker hpcEx.events ∧ notMarker hpcEx.mount ∧ notMarker (addonMetadata hpcEx)) ∧
    markerSeq (hpcPreBlockFrags hpcEx (addonMetadata hpcEx)) =
      [metadataCollectionStart, metadataSeparator] :=
  ⟨⟨⟨by decide, by decide, by decide⟩, ⟨by decide, by decide, by decide⟩,
    ⟨by decide, by decide, by decide⟩⟩,
   C2_amended_contributed_marker_order hpcEx (addonMetadata hpcEx)
     ⟨by decide, by decide, by decide⟩ ⟨by decide, by decide, by decide⟩
     ⟨by decide, by decide, by decide⟩⟩

theorem applyAll_nil (a : HPCToolkit) (c : ContainerSpec) : a.applyAll [] c = c := rfl

theorem applyAll_cons (a : HPCToolkit) (rj : ReplicatedJob) (rjs : List ReplicatedJob)
    (c : ContainerSpec) :
    a.applyAll (rj :: rjs) c =
      a.applyAll rjs
        (if a.target ≠ "" ∧ a.target ≠ rj.Name then c
         else a.applyToContainer (hpcPreBlock a (addonMetadata a)) rj c) := rfl

theorem customizeEntrypoints_eq_map (a : HPCToolkit) (cs : List ContainerSpec)
    (rjs : List ReplicatedJob) :
    a.CustomizeEntrypoints cs rjs = cs.map (a.applyAll rjs) := by
  induction rjs generalizing cs with
  | nil =>
    show cs = _
    rw [List.map_congr_left fun c _ => applyAll_nil a c]
    simp
  | cons rj rjs ih =>
    show List.foldl _ (if a.target ≠ "" ∧ a.target ≠ rj.Name then cs
      else a.customizeEntrypoint cs rj) rjs = _
    by_cases h : a.target ≠ "" ∧ a.target ≠ rj.Name
    · rw [if_pos h]
      show a.CustomizeEntrypoints cs rjs = _
      rw [ih]
      refine List.map_congr_left fun c _ => ?_
      rw [applyAll_cons, if_pos h]
    · rw [if_neg h]
      show a.CustomizeEntrypoints (a.customizeEntrypoint cs rj) rjs = _
      rw [ih, HPCToolkit.customizeEntrypoint, List.map_map]
      refine List.map_congr_left fun c _ => ?_
      show a.applyAll rjs _ = _
      rw [applyAll_cons, if_neg h]

/-- C3 counterexample: with `containerTarget = "app"` set and an
empty-named container in the targeted job-group, the container's Command
IS rewritten although its name is not "app", refuting that the Command is
rewritten only for the container whose name equals the container
target. -/
theorem C3_counterexample :
    hpcC3.containerTarget = "app" ∧ c3Container.Name ≠ "app" ∧
    ((hpcC3.CustomizeEntrypoints [c3Container] [rjJ]).map
        fun c => c.EntrypointScript.Command) =
      [hpcCommandWrap hpcC3 c3Container.EntrypointScript.Command] ∧
    hpcCommandWrap hpcC3 c3Container.EntrypointScript.Command ≠
      c3Container.EntrypointScript.Command := by
  refine ⟨by decide, by decide, by decide, by decide⟩

/-- C3 amended: `CustomizeEntrypoints` acts per container; when a target is
set, containers of other job-groups are left entirely unchanged; within a
matching replicated job, the Pre block is appended to every container, and
the Command is rewritten exactly when no container target is set, or the
container's name is empty, or it equals the container target. -/
theorem C3_amended_target_scoping (a : HPCToolkit) (cs : List ContainerSpec)
    (rjs : List ReplicatedJob) :
    a.CustomizeEntrypoints cs rjs = cs.map (a.applyAll rjs) ∧
    (∀ c, a.target ≠ "" → c.JobName ≠ a.target → a.applyAll rjs c = c) ∧
    (∀ c rj, c.JobName = rj.Name →
      (a.applyToContainer (hpcPreBlock a (addonMetadata a)) rj c).EntrypointScript.Pre =
        c.EntrypointScript.Pre ++ "\n" ++ hpcPreBlock a (addonMetadata a) ∧
      (a.applyToContainer (hpcPreBlock a (addonMetadata a)) rj c).EntrypointScript.Command =
        (if a.containerTarget = "" ∨ c.Name = "" ∨ c.Name = a.containerTarget
         then hpcCommandWrap a c.EntrypointScript.Command
         else c.EntrypointScript.Command)) := by
  refine ⟨customizeEntrypoints_eq_map a cs rjs, ?_, ?_⟩
  · intro c hT hC
    induction rjs with
    | nil => rfl
    | cons rj rjs ih =>
      simp only [HPCToolkit.applyAll, List.foldl_cons] at *
      by_cases h : a.target = rj.Name
      · rw [if_neg (by simp [h, hT]), HPCToolkit.applyToContainer,
          if_pos (by rw [h] at hC; exact hC)]
        exact ih
      · rw [if_pos ⟨hT, h⟩]
        exact ih
  · intro c rj hj
    unfold HPCToolkit.applyToContainer
    rw [if_neg (by simp [hj])]
    by_cases hskip : a.containerTarget ≠ "" ∧ c.Name ≠ "" ∧ a.containerTarget ≠ c.Name
    · rw [if_pos hskip, if_neg]
      · exact ⟨rfl, rfl⟩
      · rintro (h1 | h2 | h3)
        · exact hskip.1 h1
        · exact hskip.2.1 h2
        · exact hskip.2.2 h3.symm
    · rw [if_neg hskip, if_pos]
      · exact ⟨rfl, rfl⟩
      · push_neg at hskip
        by_cases h1 : a.containerTarget = ""
        · exact Or.inl h1
        · by_cases h2 : c.Name = ""
          · exact Or.inr (Or.inl h2)
          · exact Or.inr (Or.inr (hskip h1 h2).symm)

/-- C3 amended witness: the theorem applied at a concrete instance with a
non-empty target and a container in a different job-group. -/
theorem C3_amended_witness :
    hpcX.target ≠ "" ∧ cOther.JobName ≠ hpcX.target ∧
    hpcX.applyAll [rjJ] cOther = cOther :=
  ⟨by decide, by decide,
   (C3_amended_target_scoping hpcX [] [rjJ]).2.1 cOther (by decide) (by decide)⟩

/-- C10: when a container target is set, a container of the targeted
replicated job whose name is EMPTY still has its Command wrapped: the
per-container filter skips the rewrite only when the name is non-empty and
differs from the target. -/
theorem C10_empty_name_still_wrapped (a : HPCToolkit) (c : ContainerSpec)
    (rj : ReplicatedJob) (ht : a.containerTarget ≠ "") (hj : c.JobName = rj.Name)
    (hn : c.Name = "") :
    (a.customizeEntrypoint [c] rj).map (fun x => x.EntrypointScript.Command) =
      [hpcCommandWrap a c.EntrypointScript.Command] := by
  simp [HPCToolkit.customizeEntrypoint, HPCToolkit.applyToContainer, hj, hn]

/-- C10 witness at a concrete instance. -/
theorem C10_witness :
    hpcC3.containerTarget ≠ "" ∧ c3Container.JobName = rjJ.Name ∧ c3Container.Name = "" ∧
    (hpcC3.customizeEntrypoint [c3Container] rjJ).map
        (fun x => x.EntrypointScript.Command) =
      [hpcCommandWrap hpcC3 c3Container.EntrypointScript.Command] :=
  ⟨by decide, rfl, rfl,
   C10_empty_name_still_wrapped hpcC3 c3Container rjJ (by decide) rfl rfl⟩

theorem lookup_append {β : Type} (l1 l2 : List (String × β)) (k : String) :
    (l1 ++ l2).lookup k =
      match l1.lookup k with
      | some v => some v
      | none => l2.lookup k := by
  induction l1 with
  | nil => simp
  | cons kv t ih =>
    obtain ⟨k1, v1⟩ := kv
    cases h : k == k1 <;> simp [List.lookup_cons, h, ih]

theorem defaultOptions_lookup (a : ApplicationAddon) :
    a.DefaultOptions.lookup "image" = some (intstrFromString a.image) ∧
    a.DefaultOptions.lookup "workingDir" = some (intstrFromString a.workingDir) ∧
    a.DefaultOptions.lookup "entrypoint" = some (intstrFromString a.entrypoint) ∧
    a.DefaultOptions.lookup "command" = some (intstrFromString a.command) ∧
    a.DefaultOptions.lookup "privileged" =
      some (intstrFromString (if a.privileged then "true" else "false")) ∧
    a.DefaultOptions.lookup "events" = none ∧
    a.DefaultOptions.lookup "mount" = none ∧
    a.DefaultOptions.lookup "prefix" = none := by
  cases h : a.privileged <;>
    simp [ApplicationAddon.DefaultOptions, h, List.lookup_cons]

theorem setDefaultOptions_image (a : ApplicationAddon) (m : MetricAddon) :
    (a.SetDefaultOptions m).image = getStr m.Options "image" a.image := by
  simp only [ApplicationAddon.SetDefaultOptions, ApplicationAddon.setDefaultEntrypoint]
  split <;> rfl

theorem setDefaultOptions_command (a : ApplicationAddon) (m : MetricAddon) :
    (a.SetDefaultOptions m).command = getStr m.Options "command" a.command := by
  simp only [ApplicationAddon.SetDefaultOptions, ApplicationAddon.setDefaultEntrypoint]
  split <;> rfl

theorem setDefaultOptions_workingDir (a : ApplicationAddon) (m : MetricAddon) :
    (a.SetDefaultOptions m).workingDir = getStr m.Options "workingDir" a.workingDir := by
  simp only [ApplicationAddon.SetDefaultOptions, ApplicationAddon.setDefaultEntrypoint]
  split <;> rfl

theorem setDefaultOptions_privileged (a : ApplicationAddon) (m : MetricAddon) :
    (a.SetDefaultOptions m).privileged =
      (match m.Options.lookup "privileged" with
       | some v => if v.strVal = "true" ∨ v.strVal = "yes" then true else a.privileged
       | none => a.privileged) := by
  simp only [ApplicationAddon.SetDefaultOptions, ApplicationAddon.setDefaultEntrypoint]
  split <;> rfl

theorem setDefaultOptions_resources (a : ApplicationAddon) (m : MetricAddon) :
    (a.SetDefaultOptions m).resources =
      (match m.MapOptions.lookup "resourceLimits" with
        | some r => [("limits", copyEntries r)]
        | none => []) ++
      (match m.MapOptions.lookup "resourceRequests" with
        | some r => [("requests", copyEntries r)]
        | none => []) := by
  simp only [ApplicationAddon.SetDefaultOptions, ApplicationAddon.setDefaultEntrypoint]
  split <;> rfl

theorem setDefaultOptions_toAddonBase (a : ApplicationAddon) (m : MetricAddon) :
    (a.SetDefaultOptions m).toAddonBase = a.toAddonBase := by
  simp only [ApplicationAddon.SetDefaultOptions, ApplicationAddon.setDefaultEntrypoint]
  split <;> rfl

theorem setDefaultOptions_entrypoint (a : ApplicationAddon) (m : MetricAddon) :
    (a.SetDefaultOptions m).entrypoint =
      (if getStr m.Options "entrypoint" a.entrypoint = "" then
        "/metrics_operator/" ++ a.toAddonBase.Identifier ++ "-entrypoint.sh"
       else getStr m.Options "entrypoint" a.entrypoint) := by
  simp only [ApplicationAddon.SetDefaultOptions, ApplicationAddon.setDefaultEntrypoint]
  split <;> rfl

theorem hpcOptions_lookup (a : HPCToolkit) :
    a.Options.lookup "image" = some (intstrFromString a.toApplicationAddon.image) ∧
    a.Options.lookup "privileged" =
      some (intstrFromString (if a.toApplicationAddon.privileged then "true" else "false")) ∧
    a.Options.lookup "events" = some (intstrFromString a.events) ∧
    a.Options.lookup "mount" = some (intstrFromString a.mount) ∧
    a.Options.lookup "prefix" = some (intstrFromString a.cmdWrap) := by
  obtain ⟨di, dw, de, dc, dp, dev, dm, dpr⟩ := defaultOptions_lookup a.toApplicationAddon
  refine ⟨?_, ?_, ?_, ?_, ?_⟩ <;>
    · show ((a.toApplicationAddon.DefaultOptions ++ _).lookup _) = _
      rw [lookup_append]
      simp [di, dw, de, dc, dp, dev, dm, dpr, List.lookup_cons]

theorem assembleVolumes_congr {a b : HPCToolkit} (h1 : a.volumeName = b.volumeName)
    (h2 : a.entrypointPath = b.entrypointPath) (h3 : a.mount = b.mount) :
    a.AssembleVolumes = b.AssembleVolumes := by
  simp only [HPCToolkit.AssembleVolumes]
  rw [h1, h2, h3]

theorem assembleContainers_congr {a b : HPCToolkit} (h1 : a.volumeName = b.volumeName)
    (h2 : a.entrypointPath = b.entrypointPath) (h3 : a.mount = b.mount)
    (h4 : a.toApplicationAddon.image = b.toApplicationAddon.image)
    (h5 : a.toApplicationAddon.privileged = b.toApplicationAddon.privileged) :
    a.AssembleContainers = b.AssembleContainers := by
  simp only [HPCToolkit.AssembleContainers, hpcAddonScript]
  rw [h1, h2, h3, h4, h5]

theorem defaultOptions_congr {a b : ApplicationAddon} (h1 : a.image = b.image)
    (h2 : a.workingDir = b.workingDir) (h3 : a.entrypoint = b.entrypoint)
    (h4 : a.command = b.command) (h5 : a.privileged = b.privileged) :
    a.DefaultOptions = b.DefaultOptions := by
  simp only [ApplicationAddon.DefaultOptions]
  rw [h1, h2, h3, h4, h5]

/-- C4 counterexample: `hpcX` is a valid instance (its events are set) with
a job-group target; `Options()` exports neither `target` nor
`containerTarget` nor `workdir`, so the round-tripped instance `hpcXRound`
has an empty target and customizes a job-group the original leaves
untouched — the two are not behaviorally equivalent on entrypoint
assembly. -/
theorem C4_counterexample :
    hpcX.Validate = true ∧ hpcXRound.Validate = true ∧
    hpcXRound.target ≠ hpcX.target ∧
    hpcX.CustomizeEntrypoints [cOther] [rjOther] = [cOther] ∧
    hpcXRound.CustomizeEntrypoints [cOther] [rjOther] ≠ [cOther] := by
  refine ⟨by decide, by decide, by decide, by decide, by decide⟩

/-- C4 amended: for instances reachable by `SetOptions` from the registered
prototypes, the round trip through the exported `Options`/`MapOptions` bags
reproduces the `Validate` result and the assembled volumes and containers
of `HPCToolkit`, and the `Validate` result and exported option bags of
`ApplicationAddon`.  (The job-group target, container target and working
directory are not exported, so entrypoint customization is not reproduced;
see the counterexample.) -/
theorem C4_amended_roundtrip (b : MetricAddon) (x y : HPCToolkit)
    (xa ya : ApplicationAddon)
    (hx : x = hpctoolkitRegistered.SetOptions b)
    (hy : y = hpctoolkitRegistered.SetOptions
      { Options := x.Options, MapOptions := x.toApplicationAddon.MapOptions })
    (hxa : xa = applicationRegistered.SetOptions b)
    (hya : ya = applicationRegistered.SetOptions
      { Options := xa.Options, MapOptions := xa.MapOptions }) :
    (y.Validate = x.Validate ∧ y.AssembleVolumes = x.AssembleVolumes ∧
      y.AssembleContainers = x.AssembleContainers) ∧
    (ya.Validate = xa.Validate ∧ ya.Options = xa.Options ∧
      ya.MapOptions = xa.MapOptions) := by
  obtain ⟨bi, bp, bev, bm, bpr⟩ := hpcOptions_lookup x
  obtain ⟨ai, aw, ae, ac, ap, _, _, _⟩ := defaultOptions_lookup xa
  constructor
  · have hev : y.events = x.events := by
      rw [hy]
      show getStr x.Options "events" "" = x.events
      unfold getStr
      rw [bev]
      rfl
    have hm : y.mount = x.mount := by
      rw [hy]
      show getStr x.Options "mount" "/opt/share" = x.mount
      unfold getStr
      rw [bm]
      rfl
    have hxv : x.volumeName = "hpctoolkit" := by rw [hx]; rfl
    have hyv : y.volumeName = "hpctoolkit" := by rw [hy]; rfl
    have hxp : x.entrypointPath = "/metrics_operator/hpctoolkit-entrypoint.sh" := by rw [hx]; rfl
    have hyp : y.entrypointPath = "/metrics_operator/hpctoolkit-entrypoint.sh" := by rw [hy]; rfl
    have himg : y.toApplicationAddon.image = x.toApplicationAddon.image := by
      rw [hy]
      show (({ hpctoolkitRegistered.toApplicationAddon with
        image := "ghcr.io/converged-computing/metric-hpctoolkit-view:latest" }).SetDefaultOptions
          { Options := x.Options, MapOptions := x.toApplicationAddon.MapOptions }).image =
        x.toApplicationAddon.image
      rw [setDefaultOptions_image]
      show getStr x.Options "image" _ = x.toApplicationAddon.image
      unfold getStr
      rw [bi]
      rfl
    have hpriv : y.toApplicationAddon.privileged = x.toApplicationAddon.privileged := by
      rw [hy]
      show (({ hpctoolkitRegistered.toApplicationAddon with
        image := "ghcr.io/converged-computing/metric-hpctoolkit-view:latest" }).SetDefaultOptions
          { Options := x.Options, MapOptions := x.toApplicationAddon.MapOptions }).privileged =
        x.toApplicationAddon.privileged
      rw [setDefaultOptions_privileged]
      show (match x.Options.lookup "privileged" with
        | some v => if v.strVal = "true" ∨ v.strVal = "yes" then true else false
        | none => false) = x.toApplicationAddon.privileged
      rw [bp]
      cases hq : x.toApplicationAddon.privileged <;> simp [hq, intstrFromString]
    refine ⟨?_, ?_, ?_⟩
    · unfold HPCToolkit.Validate
      rw [hev]
    · exact assembleVolumes_congr (hyv.trans hxv.symm) (hyp.trans hxp.symm) hm
    · exact assembleContainers_congr (hyv.trans hxv.symm) (hyp.trans hxp.symm) hm himg hpriv
  · have him : ya.image = xa.image := by
      rw [hya]
      show (applicationRegistered.SetDefaultOptions
        { Options := xa.Options, MapOptions := xa.MapOptions }).image = xa.image
      rw [setDefaultOptions_image]
      show getStr xa.Options "image" "" = xa.image
      unfold getStr
      simp only [ApplicationAddon.Options]
      rw [ai]
      rfl
    have hcmd : ya.command = xa.command := by
      rw [hya]
      show (applicationRegistered.SetDefaultOptions
        { Options := xa.Options, MapOptions := xa.MapOptions }).command = xa.command
      rw [setDefaultOptions_command]
      show getStr xa.Options "command" "" = xa.command
      unfold getStr
      simp only [ApplicationAddon.Options]
      rw [ac]
      rfl
    have hwd : ya.workingDir = xa.workingDir := by
      rw [hya]
      show (applicationRegistered.SetDefaultOptions
        { Options := xa.Options, MapOptions := xa.MapOptions }).workingDir = xa.workingDir
      rw [setDefaultOptions_workingDir]
      show getStr xa.Options "workingDir" "" = xa.workingDir
      unfold getStr
      simp only [ApplicationAddon.Options]
      rw [aw]
      rfl
    have hprivA : ya.privileged = xa.privileged := by
      rw [hya]
      show (applicationRegistered.SetDefaultOptions
        { Options := xa.Options, MapOptions := xa.MapOptions }).privileged = xa.privileged
      rw [setDefaultOptions_privileged]
      show (match xa.Options.lookup "privileged" with
        | some v => if v.strVal = "true" ∨ v.strVal = "yes" then true else false
        | none => false) = xa.privileged
      simp only [ApplicationAddon.Options]
      rw [ap]
      cases hq : xa.privileged <;> simp [hq, intstrFromString]
    have hent : ya.entrypoint = xa.entrypoint := by
      rw [hya]
      show (applicationRegistered.SetDefaultOptions
        { Options := xa.Options, MapOptions := xa.MapOptions }).entrypoint = xa.entrypoint
      rw [setDefaultOptions_entrypoint]
      have hget : getStr xa.Options "entrypoint" applicationRegistered.entrypoint =
          xa.entrypoint := by
        unfold getStr
        simp only [ApplicationAddon.Options]
        rw [ae]
        rfl
      show (if getStr xa.Options "entrypoint" applicationRegistered.entrypoint = "" then _
        else getStr xa.Options "entrypoint" applicationRegistered.entrypoint) = xa.entrypoint
      rw [hget]
      have hne : xa.entrypoint ≠ "" := by
        rw [hxa]
        show (applicationRegistered.SetDefaultOptions b).entrypoint ≠ ""
        rw [setDefaultOptions_entrypoint]
        split
        · decide
        · assumption
      rw [if_neg hne]
    have hyres : ya.resources =
        [("limits", (xa.resources.lookup "limits").getD []),
         ("requests", (xa.resources.lookup "requests").getD [])] := by
      rw [hya]
      show (applicationRegistered.SetDefaultOptions
        { Options := xa.Options, MapOptions := xa.MapOptions }).resources = _
      rw [setDefaultOptions_resources]
      show ((match xa.MapOptions.lookup "resourceLimits" with
          | some r => [("limits", copyEntries r)]
          | none => []) ++
        (match xa.MapOptions.lookup "resourceRequests" with
          | some r => [("requests", copyEntries r)]
          | none => [])) = _
      simp only [ApplicationAddon.MapOptions]
      simp [List.lookup_cons, copyEntries_eq]
    refine ⟨?_, ?_, ?_⟩
    · unfold ApplicationAddon.Validate
      rw [him, hcmd]
    · show ya.DefaultOptions = xa.DefaultOptions
      exact defaultOptions_congr him hwd hent hcmd hprivA
    · unfold ApplicationAddon.MapOptions
      rw [hyres]
      simp [List.lookup_cons, copyEntries_eq]

/-- C4 amended witness: the round-trip theorem applied at the concrete bag
`hpcXBag`. -/
theorem C4_amended_witness :
    (hpcXRound.Validate = hpcX.Validate ∧ hpcXRound.AssembleVolumes = hpcX.AssembleVolumes ∧
      hpcXRound.AssembleContainers = hpcX.AssembleContainers) ∧
    (appXRound.Validate = appX.Validate ∧ appXRound.Options = appX.Options ∧
      appXRound.MapOptions = appX.MapOptions) :=
  C4_amended_roundtrip hpcXBag hpcX hpcXRound appX appXRound rfl rfl rfl rfl

theorem getStr_cons_ne (k k' : String) (v : IntOrString) (bag : GoMap IntOrString)
    (d : String) (h : k' ≠ k) :
    getStr ((k, v) :: bag) k' d = getStr bag k' d := by
  unfold getStr
  rw [List.lookup_cons]
  have hb : (k' == k) = false := by simpa using h
  simp [hb]

theorem lookup_cons_ne {β : Type} (k k' : String) (v : β) (bag : List (String × β))
    (h : k' ≠ k) :
    ((k, v) :: bag).lookup k' = bag.lookup k' := by
  rw [List.lookup_cons]
  have hb : (k' == k) = false := by simpa using h
  simp [hb]

/-- C6: option parsing is total in this embedding (every branch of the
source handles the absent-key case); adding an unknown flat key to the bag
leaves both `SetOptions` results unchanged, and the empty bag produces
exactly the documented defaults (fixed image, entrypoint path, mount and
volume name for hpctoolkit; default entrypoint name for the application
addon; zero values elsewhere). -/
theorem C6_unknown_keys_ignored_defaults_applied :
    (∀ (a : ApplicationAddon) (m : MetricAddon) (k : String) (v : IntOrString),
      k ∉ appKnownKeys →
        a.SetOptions { m with Options := (k, v) :: m.Options } = a.SetOptions m) ∧
    (∀ (h : HPCToolkit) (m : MetricAddon) (k : String) (v : IntOrString),
      k ∉ hpcKnownKeys →
        h.SetOptions { m with Options := (k, v) :: m.Options } = h.SetOptions m) ∧
    applicationRegistered.SetOptions {} =
      { applicationRegistered with
        entrypoint := "/metrics_operator/application-entrypoint.sh" } ∧
    hpctoolkitRegistered.SetOptions {} =
      { hpctoolkitRegistered with
        toApplicationAddon :=
          { hpctoolkitRegistered.toApplicationAddon with
            image := "ghcr.io/converged-computing/metric-hpctoolkit-view:latest"
            entrypoint := "/metrics_operator/perf-hpctoolkit-entrypoint.sh" }
        entrypointPath := "/metrics_operator/hpctoolkit-entrypoint.sh"
        mount := "/opt/share"
        volumeName := "hpctoolkit" } := by
  refine ⟨?_, ?_, by decide, by decide⟩
  · intro a m k v hk
    simp only [appKnownKeys, List.mem_cons, List.not_mem_nil, or_false, not_or] at hk
    obtain ⟨k1, k2, k3, k4, k5, k6⟩ := hk
    show a.SetDefaultOptions _ = a.SetDefaultOptions m
    simp only [ApplicationAddon.SetDefaultOptions]
    rw [getStr_cons_ne k "image" v m.Options _ (Ne.symm k1),
      getStr_cons_ne k "command" v m.Options _ (Ne.symm k2),
      getStr_cons_ne k "entrypoint" v m.Options _ (Ne.symm k3),
      getStr_cons_ne k "pullSecret" v m.Options _ (Ne.symm k4),
      getStr_cons_ne k "workingDir" v m.Options _ (Ne.symm k5),
      lookup_cons_ne k "privileged" v m.Options (Ne.symm k6)]
  · intro h m k v hk
    simp only [hpcKnownKeys, appKnownKeys, List.mem_append, List.mem_cons,
      List.not_mem_nil, or_false, not_or] at hk
    obtain ⟨⟨k1, k2, k3, k4, k5, k6⟩, k7, k8, k9, k10, k11, k12⟩ := hk
    simp only [HPCToolkit.SetOptions, ApplicationAddon.SetDefaultOptions]
    rw [getStr_cons_ne k "image" v m.Options _ (Ne.symm k1),
      getStr_cons_ne k "command" v m.Options _ (Ne.symm k2),
      getStr_cons_ne k "entrypoint" v m.Options _ (Ne.symm k3),
      getStr_cons_ne k "pullSecret" v m.Options _ (Ne.symm k4),
      getStr_cons_ne k "workingDir" v m.Options _ (Ne.symm k5),
      lookup_cons_ne k "privileged" v m.Options (Ne.symm k6),
      getStr_cons_ne k "mount" v m.Options _ (Ne.symm k7),
      getStr_cons_ne k "prefix" v m.Options _ (Ne.symm k8),
      getStr_cons_ne k "workdir" v m.Options _ (Ne.symm k9),
      getStr_cons_ne k "target" v m.Options _ (Ne.symm k10),
      getStr_cons_ne k "containerTarget" v m.Options _ (Ne.symm k11),
      getStr_cons_ne k "events" v m.Options _ (Ne.symm k12)]

/-- C6 witness: an unknown key on a concrete bag is ignored by both
parsers, and the defaults hold. -/
theorem C6_witness :
    "unknownKey" ∉ appKnownKeys ∧ "unknownKey" ∉ hpcKnownKeys ∧
    applicationRegistered.SetOptions
        { Options := [("unknownKey", intstrFromString "zzz")] } =
      applicationRegistered.SetOptions {} ∧
    hpctoolkitRegistered.SetOptions
        { Options := [("unknownKey", intstrFromString "zzz")] } =
      hpctoolkitRegistered.SetOptions {} :=
  ⟨by decide, by decide,
   C6_unknown_keys_ignored_defaults_applied.1 applicationRegistered {}
     "unknownKey" (intstrFromString "zzz") (by decide),
   (C6_unknown_keys_ignored_defaults_applied.2.1 hpctoolkitRegistered {}
     "unknownKey" (intstrFromString "zzz") (by decide))⟩

/-- C7: the i-th anonymous metric container's launch command references
exactly `/metrics_operator/entrypoint-<i>.sh`; an addon with a declared
name gets `/metrics_operator/<name>-entrypoint.sh` (the application
addon's default entrypoint uses its identifier, and hpctoolkit's fixed
entrypoint path uses its declared volume/script name `hpctoolkit`). -/
theorem C7_entrypoint_path_convention (metrics : List MetricPlugin) (i : Nat)
    (h : i < (getContainersSpecs metrics).length) (a : ApplicationAddon)
    (hpc : HPCToolkit) (m : MetricAddon) :
    ((getContainersSpecs metrics).get ⟨i, h⟩).Command =
      ["/bin/bash", "/metrics_operator/entrypoint-" ++ toString i ++ ".sh"] ∧
    a.setDefaultEntrypoint.entrypoint =
      "/metrics_operator/" ++ a.toAddonBase.Identifier ++ "-entrypoint.sh" ∧
    (hpc.SetOptions m).entrypointPath =
      "/metrics_operator/" ++ (hpc.SetOptions m).volumeName ++ "-entrypoint.sh" := by
  refine ⟨?_, rfl, rfl⟩
  have hlen : i < metrics.enum.length := by
    simpa [getContainersSpecs] using h
  simp [getContainersSpecs, entrypointScriptPath, List.get_eq_getElem,
    List.getElem_map, List.getElem_enum]

/-- C7 witness at a concrete two-metric list and index 1. -/
theorem C7_witness :
    ((getContainersSpecs [{ name := "one" }, { name := "two" }]).get
        ⟨1, by decide⟩).Command =
      ["/bin/bash", "/metrics_operator/entrypoint-1.sh"] ∧
    applicationRegistered.setDefaultEntrypoint.entrypoint =
      "/metrics_operator/" ++ applicationRegistered.toAddonBase.Identifier ++
        "-entrypoint.sh" :=
  ⟨by
    have := (C7_entrypoint_path_convention [{ name := "one" }, { name := "two" }] 1
      (by decide) applicationRegistered hpctoolkitRegistered {}).1
    simpa using this,
   (C7_entrypoint_path_convention [{ name := "one" }, { name := "two" }] 1
      (by decide) applicationRegistered hpctoolkitRegistered {}).2.1⟩
